import Mathlib

/-!
Verification development for the `interact-fb` Graph API client.

The definitions below are shallow embeddings of the JavaScript source:

* `createFacebookError`, `handleErrorJS`  — `src/errors.js`
* `buildRequest`, `graphStep`, `graphGo`, `graphAPIRun` — `graphAPI` in `src/graph.js`
* `chunks50`, `mkBatchItem`, `batchGraphAPI` — `batchGraphAPI` in `src/graph.js`
* `getAllLeadsGo`, `getAllLeads` — `getAllLeads` in `src/leads.js`
* `resolveStart`, `resolveMany`, `settleInFlight`, `setAccessToken`,
  `getCachedAccessToken` — `src/utils.js`

JavaScript truthiness is modelled explicitly: a string is truthy iff it is
non-empty, a number is truthy iff it is non-zero, `undefined`/`null` are
`Option.none`.  Machine integers do not overflow in any quantity the claims
touch (attempt counters, delays, timestamps), so `Nat` is used directly.
-/

namespace InteractFB

/-- A provider error body (`data.error` in the JSON response): the fields
`createFacebookError` destructures and uses (`message`, `code`). -/
structure FbErrorBody where
  message : String
  code : Nat
deriving DecidableEq, Repr

/-- The error classes of `src/errors.js`, modelled as one tagged union.
Constructor arguments mirror the JS constructor arguments that are stored
on the instance. -/
inductive FBError where
  | sdkError (message : String) (code : String)
  | authError (message : String) (code : String)
  | apiError (message : String) (code : String) (statusCode : Option Nat)
      (fbErr : Option FbErrorBody)
  | permissionError (message : String) (missingPermissions : List String)
      (code : String)
  | timeoutError (message : String) (code : String)
deriving DecidableEq, Repr

/-- `error.name` for the modelled error classes (the JS `name` field). -/
def FBError.name : FBError → String
  | .sdkError _ _ => "FacebookSDKError"
  | .authError _ _ => "FacebookAuthError"
  | .apiError _ _ _ _ => "FacebookAPIError"
  | .permissionError _ _ _ => "FacebookPermissionError"
  | .timeoutError _ _ => "FacebookTimeoutError"

/-- `ERROR_CODE_MAP` of `src/errors.js`. -/
def errorCodeMap : Nat → Option String
  | 1 => some "API_UNKNOWN"
  | 2 => some "API_SERVICE"
  | 4 => some "API_TOO_MANY_CALLS"
  | 10 => some "PERMISSION_DENIED"
  | 100 => some "API_PARAMETER"
  | 190 => some "AUTH_TOKEN_INVALID"
  | 200 => some "PERMISSION_DENIED"
  | 613 => some "API_TOO_MANY_CALLS"
  | _ => none

/-- `createFacebookError(fbError, statusCode)` of `src/errors.js`.
A missing body yields the unknown `FacebookAPIError`; otherwise the switch
on the provider `code` decides the class. -/
def createFacebookError (fbError : Option FbErrorBody) (statusCode : Option Nat) :
    FBError :=
  match fbError with
  | none => .apiError "Unknown Facebook API error" "API_UNKNOWN" statusCode none
  | some b =>
    let mappedCode := (errorCodeMap b.code).getD "API_ERROR"
    match b.code with
    | 190 | 102 | 459 => .authError b.message "AUTH_TOKEN_INVALID"
    | 10 | 200 => .permissionError b.message [] "PERMISSION_DENIED"
    | 4 | 613 => .apiError b.message "API_RATE_LIMIT" statusCode (some b)
    | _ => .apiError b.message mappedCode statusCode (some b)

/-- The errors that flow through the catch block of `graphAPI`: a Facebook error
instance, the `AbortError` thrown by an aborted `fetch`, or a network
`TypeError` whose message mentions `fetch`. -/
inductive JSErr where
  | fb (e : FBError)
  | abortErr
  | networkErr
deriving DecidableEq, Repr

/-- `handleError(error, context, metadata)` of `src/errors.js`, restricted to
the error values reachable from the retry loop of `graphAPI`: an existing Facebook
error is passed through (context attachment does not change the variant), a
network `TypeError` is wrapped as a `NETWORK_ERROR` `FacebookAPIError`, an
`AbortError` as a `TIMEOUT_ERROR` `FacebookTimeoutError`. -/
def handleErrorJS (context : String) : JSErr → FBError
  | .fb e => e
  | .networkErr => .apiError ("Network error in " ++ context) "NETWORK_ERROR" none none
  | .abortErr => .timeoutError ("Timeout error in " ++ context) "TIMEOUT_ERROR"

/-- The outbound request assembled by `graphAPI` (lines 39-61 of
`src/graph.js`): the URL query pairs, the headers, and the body.  The body is
`JSON.stringify(params)`; since that serialization is injective on the
parameter mapping, the body is modelled as the parameter list it serializes.
The query is the ordered pair list of the object literal
`\x7b access_token, ...params \x7d`; for any `params` mapping that does not
itself contain an `access_token` key this is exactly the pair list below. -/
structure HttpRequest where
  urlQuery : List (String × String)
  headers : List (String × String)
  body : Option (List (String × String))
deriving DecidableEq, Repr

/-- `method.toUpperCase()`: HTTP method strings are ASCII, where JS
`toUpperCase` upper-cases characterwise. -/
def upperAscii (s : String) : String := String.mk (s.data.map Char.toUpper)

/-- Request construction of `graphAPI` (`src/graph.js` lines 40-61):
`isGet` compares the upper-cased method with `GET`; for GET the parameters
(credential included) go to the query string only when the params mapping is
non-empty; for non-GET the params travel as a JSON body with a
`Content-Type: application/json` and `Authorization: Bearer` header. -/
def buildRequest (accessToken : String) (method : String)
    (params : List (String × String)) : HttpRequest :=
  let isGet := upperAscii method == "GET"
  { urlQuery :=
      if isGet ∧ params ≠ [] then ("access_token", accessToken) :: params else []
  , headers :=
      if isGet then []
      else [("Content-Type", "application/json"),
            ("Authorization", "Bearer " ++ accessToken)]
  , body := if isGet then none else some params }

/-- The outcome of one `fetch` + `response.json()` round as seen by one
iteration of the retry loop of `graphAPI`: a 2xx response with the parsed payload,
a non-2xx response with its status and optional structured error body, an
`AbortError` thrown by the aborted fetch, or a network `TypeError`. -/
inductive HttpResult where
  | success (payload : String)
  | failure (status : Nat) (errBody : Option FbErrorBody)
  | abort
  | network
deriving DecidableEq, Repr

/-- Observable side effects of one `graphAPI` call, in program order:
`newController` is `new AbortController()` (line 64), `timerStart ms` is
`setTimeout(() => controller.abort(), ms)` (line 65), `timerClear` is
`clearTimeout(timeoutId)` (lines 74 and 98), `fetchEv` is the `fetch` call
(line 73), `sleepEv ms` is `await sleep(ms)` (lines 89, 109, 120, 133). -/
inductive Ev where
  | newController
  | timerStart (ms : Nat)
  | timerClear
  | fetchEv
  | sleepEv (ms : Nat)
deriving DecidableEq, Repr

/-- What one iteration of the retry loop decides: finish with a result or a
thrown error, sleep `sleepMs` and continue with the next attempt, or `break`
out of the loop carrying `lastError` (which the epilogue routes through
`handleError`). -/
inductive StepOut where
  | done (r : Except FBError String)
  | retry (sleepMs : Nat)
  | brk (lastError : JSErr)
deriving Repr

/-- The `catch` block of `graphAPI` (`src/graph.js` lines 97-138) applied to a
thrown error: `AbortError` becomes a `FacebookTimeoutError` and is retried
while attempts remain; a network `TypeError` is retried while attempts remain
and otherwise falls through to the `break`; a Facebook error named
`FacebookAuthError` or `FacebookPermissionError` is rethrown at once; any
other error is retried while attempts remain, else the loop breaks with it as
`lastError`. -/
def catchOn (timeout retryDelay retryAttempts attempt : Nat) : JSErr → StepOut
  | .abortErr =>
    let te : FBError :=
      .timeoutError ("Request timed out after " ++ toString timeout ++ "ms")
        "REQUEST_TIMEOUT"
    if attempt < retryAttempts then .retry (retryDelay * 2 ^ attempt)
    else .done (.error te)
  | .networkErr =>
    if attempt < retryAttempts then .retry (retryDelay * 2 ^ attempt)
    else .brk .networkErr
  | .fb e =>
    if e.name == "FacebookAuthError" ∨ e.name == "FacebookPermissionError" then
      .done (.error e)
    else if attempt < retryAttempts then .retry (retryDelay * 2 ^ attempt)
    else .brk (.fb e)

/-- One iteration of the retry loop of `graphAPI` (`src/graph.js` lines 71-138) on
the fetch outcome of this attempt.  On a non-2xx response the error is
classified; a client-error status in `[400,500)` other than 429 throws the
classified error (line 83) — which the own `catch` block of the function then
handles; a retryable status (5xx or 429) with attempts remaining sleeps and
continues inside the `try`; otherwise the classified error is thrown
(line 93) into the `catch` block. -/
def graphStep (timeout retryDelay retryAttempts attempt : Nat) :
    HttpResult → StepOut
  | .success payload => .done (.ok payload)
  | .failure status errBody =>
    let fbError := createFacebookError errBody (some status)
    if 400 ≤ status ∧ status < 500 ∧ status ≠ 429 then
      catchOn timeout retryDelay retryAttempts attempt (.fb fbError)
    else if attempt < retryAttempts ∧ (500 ≤ status ∨ status = 429) then
      .retry (retryDelay * 2 ^ attempt)
    else
      catchOn timeout retryDelay retryAttempts attempt (.fb fbError)
  | .abort => catchOn timeout retryDelay retryAttempts attempt .abortErr
  | .network => catchOn timeout retryDelay retryAttempts attempt .networkErr

/-- The retry loop of `graphAPI`: attempt `attempt` consumes
`behaviour attempt`, every attempt emits its `fetch` and `clearTimeout`
events, a retry emits its backoff sleep, and a `break` runs the epilogue
(`handleError` + rethrow, lines 142-149).  `fuel` bounds the recursion; the
top-level call passes `retryAttempts + 1`, which is exact because `retry` is
only produced when `attempt < retryAttempts`. -/
def graphGo (timeout retryDelay retryAttempts : Nat) (behaviour : Nat → HttpResult)
    (attempt : Nat) : Nat → Except FBError String × List Ev
  | 0 => (.error (handleErrorJS "graphAPI" .networkErr), [])
  | fuel + 1 =>
    match graphStep timeout retryDelay retryAttempts attempt (behaviour attempt) with
    | .done r => (r, [.fetchEv, .timerClear])
    | .retry ms =>
      let rest := graphGo timeout retryDelay retryAttempts behaviour (attempt + 1) fuel
      (rest.1, .fetchEv :: .timerClear :: .sleepEv ms :: rest.2)
    | .brk lastError =>
      (.error (handleErrorJS "graphAPI" lastError), [.fetchEv, .timerClear])

/-- A full `graphAPI` call: one `AbortController` and one timeout timer are
created before the loop (`src/graph.js` lines 63-66), then the retry loop
runs with the per-attempt fetch outcomes given by `behaviour`. -/
def graphAPIRun (timeout retryDelay retryAttempts : Nat)
    (behaviour : Nat → HttpResult) : Except FBError String × List Ev :=
  let r := graphGo timeout retryDelay retryAttempts behaviour 0 (retryAttempts + 1)
  (r.1, .newController :: .timerStart timeout :: r.2)

/-- The backoff sleeps of an event trace, in order. -/
def sleepsOf (evs : List Ev) : List Nat :=
  evs.filterMap fun e =>
    match e with
    | .sleepEv ms => some ms
    | _ => none

/-- How many events of the trace satisfy `p`. -/
def countEv (p : Ev → Bool) (evs : List Ev) : Nat :=
  evs.countP p

/-- Is this event a `fetch`? -/
def isFetch : Ev → Bool
  | .fetchEv => true
  | _ => false

/-- Is this event the creation of an `AbortController`? -/
def isNewController : Ev → Bool
  | .newController => true
  | _ => false

/-- Is this event the start of a timeout timer? -/
def isTimerStart : Ev → Bool
  | .timerStart _ => true
  | _ => false

/-- The module-level mutable state of `src/utils.js`: `cachedAccessToken`
(a string or `null`), `cachedExpiresAtMs`, and `inFlightTokenPromise`
(modelled by the identity of the pending promise, or `none`). -/
structure TokenState where
  cachedAccessToken : Option String
  cachedExpiresAtMs : Nat
  inFlight : Option Nat
deriving DecidableEq, Repr

/-- JavaScript truthiness of a nullable string: present and non-empty. -/
def truthyStr : Option String → Bool
  | some s => s ≠ ""
  | none => false

/-- JavaScript truthiness of a nullable number: present and non-zero. -/
def truthyNum : Option Nat → Bool
  | some n => n ≠ 0
  | none => false

/-- What the synchronous prefix of one `resolveAccessToken` call returns
(`src/utils.js` lines 15-61): the explicit token, the cached token, the
already in-flight promise, a freshly started resolution promise (which called
`FB.getLoginStatus` exactly once), or a thrown `FacebookSDKError`. -/
inductive ResolveOutcome where
  | explicitTok (t : String)
  | cachedTok (t : String)
  | joined (promiseId : Nat)
  | started (promiseId : Nat)
  | sdkFail
deriving DecidableEq, Repr

/-- The tail of `resolveAccessToken` (`src/utils.js` lines 30-60): when the
credential source is available (`fbAvailable` models
the JS check that `FB.getLoginStatus` is a function)
a new in-flight promise with identity `freshId` is stored and
`FB.getLoginStatus` is called once (the returned count); otherwise a
`FacebookSDKError` is thrown. -/
def startOrFail (st : TokenState) (fbAvailable : Bool) (freshId : Nat) :
    ResolveOutcome × TokenState × Nat :=
  if fbAvailable then
    (.started freshId, { st with inFlight := some freshId }, 1)
  else (.sdkFail, st, 0)

/-- `resolveAccessToken` after the explicit-token early return
(`src/utils.js` lines 22-60): valid cache hit, joining the in-flight
promise, starting a fresh resolution, or the `FacebookSDKError` throw. -/
def resolveStartNoToken (st : TokenState) (now : Nat)
    (useCache forceRefresh fbAvailable : Bool) (freshId : Nat) :
    ResolveOutcome × TokenState × Nat :=
  if useCache ∧ ¬forceRefresh ∧ truthyStr st.cachedAccessToken
      ∧ st.cachedExpiresAtMs > now + 5000 then
    (.cachedTok (st.cachedAccessToken.getD ""), st, 0)
  else
    match st.inFlight with
    | some p =>
      if ¬forceRefresh then (.joined p, st, 0)
      else startOrFail st fbAvailable freshId
    | none => startOrFail st fbAvailable freshId

/-- The synchronous prefix of `resolveAccessToken` (`src/utils.js` lines
15-61), run atomically on the single-threaded event loop.  Returns the
outcome, the updated module state, and the number of calls made to the
credential source `FB.getLoginStatus` (0 or 1).  A non-empty explicit string
token is returned at once, bypassing cache, in-flight slot and credential
source. -/
def resolveStart (st : TokenState) (now : Nat) (maybeToken : Option String)
    (useCache forceRefresh fbAvailable : Bool) (freshId : Nat) :
    ResolveOutcome × TokenState × Nat :=
  match maybeToken with
  | some t =>
    if t.trim ≠ "" then (.explicitTok t, st, 0)
    else resolveStartNoToken st now useCache forceRefresh fbAvailable freshId
  | none => resolveStartNoToken st now useCache forceRefresh fbAvailable freshId

/-- `N` concurrent `resolveAccessToken()` calls, each with no explicit token
and default options.  On the single-threaded event loop their synchronous
prefixes run one after another (none of them awaits before returning a
promise), so the run is the left fold of `resolveStart`; the accumulated
`Nat` counts calls to the credential source.  The n-th call would use fresh
promise identity `n`. -/
def resolveMany (st : TokenState) (now : Nat) :
    Nat → List ResolveOutcome × TokenState × Nat
  | 0 => ([], st, 0)
  | n + 1 =>
    let prev := resolveMany st now n
    let r := resolveStart prev.2.1 now none true false true n
    (prev.1 ++ [r.1], r.2.1, prev.2.2 + r.2.2)

/-- The `status` object `FB.getLoginStatus` passes to its callback: the
`status` string and the optional `authResponse` fields the source reads. -/
structure LoginStatus where
  status : String
  accessToken : Option String
  expiresIn : Option Nat
deriving DecidableEq, Repr

/-- The callback plus `finally` clause of the in-flight promise
(`src/utils.js` lines 32-53): on a connected status with a truthy token the
token is cached (expiry = reported expiry, defaulting to one hour) and the
promise resolves to it; otherwise the promise rejects with a
`FacebookPermissionError`; in both cases the `finally` clears
`inFlightTokenPromise`. -/
def settleInFlight (st : TokenState) (now : Nat) (ls : Option LoginStatus) :
    TokenState × Except FBError String :=
  match ls with
  | some l =>
    if l.status == "connected" ∧ truthyStr l.accessToken then
      let token := l.accessToken.getD ""
      let expiresAt :=
        if truthyNum l.expiresIn then now + (l.expiresIn.getD 0) * 1000
        else now + 60 * 60 * 1000
      ({ cachedAccessToken := some token, cachedExpiresAtMs := expiresAt,
         inFlight := none }, .ok token)
    else
      ({ st with inFlight := none },
       .error (.permissionError
        "User not logged in. Cannot proceed without an access token."
        [] "NOT_LOGGED_IN"))
  | none =>
    ({ st with inFlight := none },
     .error (.permissionError
      "User not logged in. Cannot proceed without an access token."
      [] "NOT_LOGGED_IN"))

/-- `setAccessToken(token, expiresInSeconds)` of `src/utils.js` (lines
63-69).  `cachedAccessToken` becomes the token when it is a string, else
`null`; `cachedExpiresAtMs` is set only when the stored token is truthy
(a non-empty string), using the given expiry when that is truthy (non-zero)
and one hour otherwise. -/
def setAccessToken (st : TokenState) (now : Nat) (token : Option String)
    (expiresInSeconds : Option Nat) : TokenState :=
  let cached := token
  let expiresAt :=
    if truthyStr cached then
      if truthyNum expiresInSeconds then now + (expiresInSeconds.getD 0) * 1000
      else now + 60 * 60 * 1000
    else 0
  { st with cachedAccessToken := cached, cachedExpiresAtMs := expiresAt }

/-- `getCachedAccessToken()` of `src/utils.js` (lines 77-83): the cached
token when it is truthy and still valid for strictly more than 5 seconds,
else `null`. -/
def getCachedAccessToken (st : TokenState) (now : Nat) : Option String :=
  if truthyStr st.cachedAccessToken ∧ st.cachedExpiresAtMs > now + 5000 then
    st.cachedAccessToken
  else none

/-- `response.paging.cursors` as read by `getAllLeads`. -/
structure Cursors where
  after : Option String
deriving DecidableEq, Repr

/-- `response.paging` as read by `getAllLeads`. -/
structure Paging where
  next : Option String
  cursors : Option Cursors
deriving DecidableEq, Repr

/-- A provider response to one `getLeads` page fetch: the optional `data`
array and the optional `paging` object. -/
structure LeadsResponse (α : Type) where
  data : Option (List α)
  paging : Option Paging
deriving DecidableEq, Repr

/-- Truthiness of `response.paging.cursors?.after` for a `Paging` value. -/
def pagingAfterTruthy (pg : Paging) : Bool :=
  match pg.cursors with
  | some c => truthyStr c.after
  | none => false

/-- The pagination loop of `getAllLeads` (`src/leads.js` lines 83-107).  The
provider is a function of the fetch index, the cursor sent, and the requested
limit.  Returns `(some leads, fetches)` when the loop exits within `fuel`
iterations and `(none, fetches)` when the fuel runs out with the loop still
live — the source loop has no other bound, so fuel exhaustion witnesses that
the loop is still issuing requests.  Each iteration requests
`min(100, maxLeads - fetchedCount)` items, appends a truthy non-empty `data`
array, and continues exactly when `paging`, a truthy `paging.next`, a truthy
`paging.cursors?.after` and `fetchedCount < maxLeads` all hold. -/
def getAllLeadsGo {α : Type} (provider : Nat → Option String → Nat → LeadsResponse α)
    (maxLeads : Nat) (callIdx : Nat) (after : Option String) (fetchedCount : Nat)
    (allLeads : List α) : Nat → Option (List α) × Nat
  | 0 => (none, 0)
  | fuel + 1 =>
    if fetchedCount < maxLeads then
      let response := provider callIdx after (min 100 (maxLeads - fetchedCount))
      let items :=
        match response.data with
        | some l => if l.length > 0 then l else []
        | none => []
      let allLeads2 := allLeads ++ items
      let fetched2 := fetchedCount + items.length
      match response.paging with
      | some pg =>
        if truthyStr pg.next ∧ pagingAfterTruthy pg ∧ fetched2 < maxLeads then
          let rest := getAllLeadsGo provider maxLeads (callIdx + 1)
            (pg.cursors.bind Cursors.after) fetched2 allLeads2 fuel
          (rest.1, rest.2 + 1)
        else (some allLeads2, 1)
      | none => (some allLeads2, 1)
    else (some allLeads, 0)

/-- `getAllLeads(formId, token, options)` for a positive `maxLeads`
(`assertPositiveInteger` admits exactly those), starting from the optional
caller-supplied `options.after` cursor, with the given fuel bound on loop
iterations. -/
def getAllLeads {α : Type} (provider : Nat → Option String → Nat → LeadsResponse α)
    (maxLeads : Nat) (after0 : Option String) (fuel : Nat) :
    Option (List α) × Nat :=
  getAllLeadsGo provider maxLeads 0 after0 0 [] fuel

/-- One element of the `requests` array handed to `batchGraphAPI`: the
fields the source reads (`method`, `endpoint`, `params`, `name`), optional
ones as options. -/
structure BatchReq where
  method : Option String
  endpoint : String
  params : Option (List (String × String))
  name : Option String
deriving DecidableEq, Repr

/-- One serialized sub-request of a batch (`src/graph.js` lines 171-176). -/
structure BatchItem where
  method : String
  relative_url : String
  include_headers : Bool
  name : String
deriving DecidableEq, Repr

/-- `new URLSearchParams(params).toString()`: `k=v` pairs joined by `&`
(URL escaping is the identity on the inputs of the claims and is injective, so it
is not modelled further). -/
def encodeParams (ps : List (String × String)) : String :=
  String.intercalate "&" (ps.map fun p => p.1 ++ "=" ++ p.2)

/-- The mapping of one sub-request at global position `globalIdx` to its
`BatchItem` (`src/graph.js` lines 171-176): method defaults to `GET`,
`relative_url` appends the encoded params behind a `?` when `params` is
present (any object is truthy), `name` defaults to the indexed
`request_<i>`. -/
def mkBatchItem (globalIdx : Nat) (req : BatchReq) : BatchItem :=
  { method := req.method.getD "GET"
  , relative_url :=
      req.endpoint ++
        (match req.params with
         | some ps => "?" ++ encodeParams ps
         | none => "")
  , include_headers := false
  , name := req.name.getD ("request_" ++ toString globalIdx) }

/-- The chunking loop of `batchGraphAPI` (`src/graph.js` lines 168-169),
`requests.slice(i, i + 50)` for `i = 0, 50, 100, …`, written with structural
recursion on a fuel that bounds the number of groups; `fuel = l.length`
always suffices because every group consumes at least one element. -/
def chunksGo {α : Type} : Nat → List α → List (List α)
  | 0, _ => []
  | _ + 1, [] => []
  | fuel + 1, x :: xs => ((x :: xs).take 50) :: chunksGo fuel ((x :: xs).drop 50)

/-- The groups of at most 50 formed by the batch loop. -/
def chunks50 {α : Type} (l : List α) : List (List α) :=
  chunksGo l.length l

/-- The body of `batchGraphAPI` after the input check: each chunk is turned
into its `BatchItem` list (with global indices `i + index`) and sent as one
outer `graphAPI` POST whose single parameter is the serialized group; the
per-group responses are concatenated in order.  `responder` is the
behaviour of that outer call.  Also returns the number of outer calls
issued. -/
def batchLoop (responder : List BatchItem → List (Except FBError String))
    (groups : List (List (Nat × BatchReq))) :
    List (Except FBError String) × Nat :=
  match groups with
  | [] => ([], 0)
  | g :: gs =>
    let items := g.map fun p => mkBatchItem p.1 p.2
    let rest := batchLoop responder gs
    (responder items ++ rest.1, rest.2 + 1)

/-- `batchGraphAPI(requests, accessToken, options)` (`src/graph.js` lines
159-194): a non-array or empty `requests` throws a plain
plain invalid-input `Error` before any call; otherwise the
enumerated requests are processed in consecutive groups of at most 50.  The
result is the collected responses (or the invalid-input error) together with
the number of outer calls issued. -/
def batchGraphAPI (responder : List BatchItem → List (Except FBError String))
    (requests : Option (List BatchReq)) :
    Except String (List (Except FBError String)) × Nat :=
  match requests with
  | none => (.error "Requests must be a non-empty array", 0)
  | some reqs =>
    if reqs = [] then (.error "Requests must be a non-empty array", 0)
    else
      let r := batchLoop responder (chunks50 reqs.enum)
      (.ok r.1, r.2)

/-- A provider behaviour for `graphAPI` that answers every attempt with
HTTP 400 and the parameter-error body (`code: 100`). -/
def beh400 : Nat → HttpResult := fun _ => .failure 400 (some ⟨"Invalid parameter", 100⟩)

/-- A provider behaviour for `graphAPI` that answers every attempt with
HTTP 401 and an invalid-token body (`code: 190`). -/
def beh401 : Nat → HttpResult := fun _ => .failure 401 (some ⟨"bad token", 190⟩)

/-- A provider behaviour for `graphAPI` that fails the first `k` attempts
with a bare HTTP 500 and then succeeds with `payload`. -/
def beh500 (k : Nat) (payload : String) : Nat → HttpResult := fun i =>
  if i < k then .failure 500 none else .success payload

/-- A leads provider that always returns an empty page that still carries a
`paging.next` link and a `paging.cursors.after` cursor. -/
def emptyPageProvider : Nat → Option String → Nat → LeadsResponse Nat :=
  fun _ _ _ => ⟨some [], some ⟨some "n", some ⟨some "c"⟩⟩⟩

/-- A leads provider with pages of size 25: fetch `i` serves the leads
`25*i, …, 25*i+24` (capped by the requested limit), always reporting a
further cursor. -/
def pagedProvider : Nat → Option String → Nat → LeadsResponse Nat := fun i _ limit =>
  ⟨some ((List.range (min 25 limit)).map (fun j => 25 * i + j)),
   some ⟨some "next", some ⟨some ("c" ++ toString i)⟩⟩⟩

/-- 120 identical sub-requests for the batch dispatcher. -/
def demo120 : List BatchReq := List.replicate 120 ⟨none, "me", none, none⟩

deriving instance DecidableEq for Except

/-! ## Helper lemmas -/

/-- The retry loop itself creates no `AbortController` and starts no timeout
timer: those happen once, before the loop. -/
theorem graphGo_no_controller (t rd ra : Nat) (beh : Nat → HttpResult) :
    ∀ fuel attempt,
    countEv isNewController (graphGo t rd ra beh attempt fuel).2 = 0 ∧
    countEv isTimerStart (graphGo t rd ra beh attempt fuel).2 = 0 := by
  intro fuel
  induction fuel with
  | zero => intro a; simp [graphGo, countEv]
  | succ n ih =>
    intro a
    have iha := ih (a + 1)
    simp only [graphGo]
    rcases h : graphStep t rd ra a (beh a) with r | ms | le
    · simp [countEv, isNewController, isTimerStart, List.countP_cons]
    · simp [countEv, isNewController, isTimerStart, List.countP_cons] at iha ⊢
      exact iha
    · simp [countEv, isNewController, isTimerStart, List.countP_cons]

/-- When every attempt is aborted, the loop ends by throwing the
`FacebookTimeoutError` built from the configured timeout. -/
theorem graphGo_abort (t rd ra : Nat) :
    ∀ fuel attempt, ra - attempt < fuel → attempt ≤ ra →
    (graphGo t rd ra (fun _ => .abort) attempt fuel).1
      = .error (.timeoutError
          ("Request timed out after " ++ toString t ++ "ms") "REQUEST_TIMEOUT") := by
  intro fuel
  induction fuel with
  | zero => intro a hfa ha; omega
  | succ n ih =>
    intro a hfa ha
    by_cases hlt : a < ra
    · have hstep : graphStep t rd ra a ((fun _ => HttpResult.abort) a)
          = .retry (rd * 2 ^ a) := by
        simp [graphStep, catchOn, hlt]
      simp only [graphGo, hstep]
      exact ih (a + 1) (by omega) (by omega)
    · have hstep : graphStep t rd ra a ((fun _ => HttpResult.abort) a)
          = .done (.error (.timeoutError
              ("Request timed out after " ++ toString t ++ "ms")
              "REQUEST_TIMEOUT")) := by
        simp [graphStep, catchOn, hlt]
      simp only [graphGo, hstep]

/-- Running the loop against `k ≤ retryAttempts` plain 500 failures followed
by success: it returns the payload, sleeps the exponential backoff delays of
attempts `a, …, k-1`, and fetches once per attempt. -/
theorem graphGo_beh500 (t rd ra k : Nat) (p : String) (hk : k ≤ ra) :
    ∀ fuel a, a ≤ k → k - a < fuel →
    (graphGo t rd ra (beh500 k p) a fuel).1 = .ok p ∧
    sleepsOf (graphGo t rd ra (beh500 k p) a fuel).2
      = (List.range' a (k - a)).map (fun i => rd * 2 ^ i) ∧
    countEv isFetch (graphGo t rd ra (beh500 k p) a fuel).2 = (k - a) + 1 := by
  intro fuel
  induction fuel with
  | zero => intro a ha hf; omega
  | succ n ih =>
    intro a ha hf
    rcases Nat.lt_or_ge a k with hak | hak
    · have hbeh : beh500 k p a = .failure 500 none := by simp [beh500, hak]
      have hstep : graphStep t rd ra a (beh500 k p a) = .retry (rd * 2 ^ a) := by
        have hra : a < ra := by omega
        simp [hbeh, graphStep, hra]
      simp only [graphGo, hstep]
      obtain ⟨ih1, ih2, ih3⟩ := ih (a + 1) (by omega) (by omega)
      have hsplit : k - a = (k - (a + 1)) + 1 := by omega
      refine ⟨ih1, ?_, ?_⟩
      · simp only [sleepsOf, List.filterMap_cons] at ih2 ⊢
        rw [hsplit, List.range'_succ]
        simpa using ih2
      · simp [countEv, List.countP_cons, isFetch] at ih3 ⊢
        omega
    · have hae : a = k := by omega
      subst hae
      have hbeh : beh500 a p a = .success p := by simp [beh500]
      have hstep : graphStep t rd ra a (beh500 a p a) = .done (.ok p) := by
        simp [hbeh, graphStep]
      simp [graphGo, hstep, sleepsOf, countEv, isFetch]

/-- With no usable cache and an empty in-flight slot, `n ≥ 1` back-to-back
synchronous starts of `resolveAccessToken` make exactly one credential-source
call, hand every later caller the first promise, and leave that promise in
the in-flight slot. -/
theorem resolveMany_single_flight (st : TokenState) (now : Nat)
    (hcache : truthyStr st.cachedAccessToken = false
      ∨ ¬(st.cachedExpiresAtMs > now + 5000))
    (hflight : st.inFlight = none) :
    ∀ n, 1 ≤ n →
    resolveMany st now n
      = (.started 0 :: List.replicate (n - 1) (.joined 0),
         { st with inFlight := some 0 }, 1) := by
  have hcond : ∀ st2 : TokenState, st2.cachedAccessToken = st.cachedAccessToken →
      st2.cachedExpiresAtMs = st.cachedExpiresAtMs →
      ¬(True ∧ ¬False ∧ truthyStr st2.cachedAccessToken = true
          ∧ st2.cachedExpiresAtMs > now + 5000) := by
    intro st2 h1 h2
    rw [h1, h2]
    rcases hcache with hc | hc
    · simp [hc]
    · simp [hc]
  intro n
  induction n with
  | zero => omega
  | succ m ih =>
    intro _
    rcases Nat.eq_zero_or_pos m with hm | hm
    · subst hm
      have hr : resolveStart st now none true false true 0
          = (.started 0, { st with inFlight := some 0 }, 1) := by
        simp only [resolveStart, resolveStartNoToken, startOrFail, hflight]
        rw [if_neg]
        · simp
        · simpa using hcond st rfl rfl
      simp [resolveMany, hr]
    · have ihm := ih hm
      have hr : resolveStart { st with inFlight := some 0 } now none true false true m
          = (.joined 0, { st with inFlight := some 0 }, 0) := by
        simp only [resolveStart, resolveStartNoToken]
        rw [if_neg]
        · simp
        · simpa using hcond { st with inFlight := some 0 } rfl rfl
      have hm1 : m - 1 + 1 = m := by omega
      have hlist : (ResolveOutcome.started 0
            :: List.replicate (m - 1) (ResolveOutcome.joined 0))
            ++ [ResolveOutcome.joined 0]
          = ResolveOutcome.started 0 :: List.replicate m (ResolveOutcome.joined 0) := by
        rw [List.cons_append, ← List.replicate_succ', hm1]
      simp only [resolveMany, ihm, hr]
      simp [hlist]

/-- The `finally` clause clears the in-flight slot whether the promise
resolves or rejects. -/
theorem settleInFlight_clears (st : TokenState) (now : Nat) (ls : Option LoginStatus) :
    (settleInFlight st now ls).1.inFlight = none := by
  rcases ls with _ | l
  · rfl
  · simp only [settleInFlight]
    split
    · rfl
    · rfl

/-- A connected status with a non-empty token resolves the in-flight promise
to exactly that token. -/
theorem settleInFlight_connected (st : TokenState) (now : Nat) (tok : String)
    (e : Option Nat) (htok : tok ≠ "") :
    (settleInFlight st now (some ⟨"connected", some tok, e⟩)).2 = .ok tok := by
  simp [settleInFlight, truthyStr, htok]

/-- The guarded `data` push of `getAllLeads` appends exactly the `data`
array (an absent or empty array contributes nothing either way). -/
theorem itemsOf_eq_getD {α : Type} (d : Option (List α)) :
    (match d with
      | some l => if l.length > 0 then l else []
      | none => []) = d.getD [] := by
  rcases d with _ | l
  · rfl
  · by_cases h : l.length > 0
    · simp [h]
    · have : l = [] := by
        rcases l with _ | ⟨x, xs⟩
        · rfl
        · simp at h
      simp [this]

/-- Invariant of the pagination loop: when every page returns at most the
requested limit, the collected list never exceeds `maxLeads`. -/
theorem getAllLeadsGo_le {α : Type}
    (provider : Nat → Option String → Nat → LeadsResponse α) (maxLeads : Nat)
    (hp : ∀ i a l, ((provider i a l).data.getD []).length ≤ l) :
    ∀ fuel callIdx after fetched (acc : List α), acc.length = fetched →
      fetched ≤ maxLeads →
      ∀ out, (getAllLeadsGo provider maxLeads callIdx after fetched acc fuel).1
        = some out →
      out.length ≤ maxLeads := by
  intro fuel
  induction fuel with
  | zero =>
    intro callIdx after fetched acc hacc hle out hout
    simp [getAllLeadsGo] at hout
  | succ n ih =>
    intro callIdx after fetched acc hacc hle out hout
    simp only [getAllLeadsGo] at hout
    by_cases hfm : fetched < maxLeads
    · rw [if_pos hfm] at hout
      rw [itemsOf_eq_getD] at hout
      have hitems : ((provider callIdx after (min 100 (maxLeads - fetched))).data.getD
          []).length ≤ maxLeads - fetched := by
        exact le_trans (hp callIdx after _) (Nat.min_le_right _ _)
      rcases hpg : (provider callIdx after (min 100 (maxLeads - fetched))).paging
          with _ | pg
      · rw [hpg] at hout
        simp at hout
        subst hout
        simp [hacc]
        omega
      · rw [hpg] at hout
        dsimp only at hout
        by_cases hcont : truthyStr pg.next ∧ pagingAfterTruthy pg
            ∧ fetched + ((provider callIdx after
                (min 100 (maxLeads - fetched))).data.getD []).length < maxLeads
        · rw [if_pos hcont] at hout
          simp only at hout
          exact ih (callIdx + 1) (pg.cursors.bind Cursors.after) _ _
            (by simp [hacc]) (by omega) out hout
        · rw [if_neg hcont] at hout
          simp at hout
          subst hout
          simp [hacc]
          omega
    · rw [if_neg hfm] at hout
      simp at hout
      subst hout
      omega

/-- The batch loop issues exactly one outer call per group. -/
theorem batchLoop_calls (responder : List BatchItem → List (Except FBError String)) :
    ∀ gs, (batchLoop responder gs).2 = gs.length := by
  intro gs
  induction gs with
  | nil => rfl
  | cons g gs ih => simp [batchLoop, ih]

/-- When the outer call answers each sub-request independently through `f`,
the batch loop returns the per-item responses of the flattened groups in
order. -/
theorem batchLoop_map (f : BatchItem → Except FBError String)
    (responder : List BatchItem → List (Except FBError String))
    (hresp : ∀ items, responder items = items.map f) :
    ∀ gs, (batchLoop responder gs).1
      = gs.flatten.map (fun p => f (mkBatchItem p.1 p.2)) := by
  intro gs
  induction gs with
  | nil => rfl
  | cons g gs ih =>
    simp [batchLoop, ih, hresp, List.map_map]

/-- Flattening the groups recovers the original list. -/
theorem chunksGo_flatten {α : Type} :
    ∀ (fuel : Nat) (l : List α), l.length ≤ fuel → (chunksGo fuel l).flatten = l := by
  intro fuel
  induction fuel with
  | zero =>
    intro l h
    rcases l with _ | ⟨x, xs⟩
    · rfl
    · simp at h
  | succ m ih =>
    intro l h
    rcases l with _ | ⟨x, xs⟩
    · rfl
    · simp only [chunksGo, List.flatten_cons]
      rw [ih ((x :: xs).drop 50)
        (by simp only [List.length_drop, List.length_cons] at *; omega)]
      exact List.take_append_drop 50 (x :: xs)

/-- Flattening the batch groups recovers the original request list. -/
theorem chunks50_flatten {α : Type} (l : List α) : (chunks50 l).flatten = l :=
  chunksGo_flatten l.length l (le_refl _)

/-- Every group the chunking produces has at most 50 elements. -/
theorem chunksGo_le {α : Type} :
    ∀ (fuel : Nat) (l : List α), ∀ g ∈ chunksGo fuel l, g.length ≤ 50 := by
  intro fuel
  induction fuel with
  | zero =>
    intro l g hg
    simp [chunksGo] at hg
  | succ m ih =>
    intro l g hg
    rcases l with _ | ⟨x, xs⟩
    · simp [chunksGo] at hg
    · simp only [chunksGo] at hg
      rcases List.mem_cons.mp hg with hg | hg
      · subst hg
        simp
      · exact ih ((x :: xs).drop 50) g hg

/-- Every batch group has at most 50 elements. -/
theorem chunks50_le {α : Type} (l : List α) :
    ∀ g ∈ chunks50 l, g.length ≤ 50 :=
  chunksGo_le l.length l

/-! ## Claim theorems -/

/-- C1.  The claim says every HTTP status in `[400,500)` other than 429 fails
immediately with the classified error and no further attempts.  The code
violates this: the classified error thrown at line 83 of `src/graph.js`
lands in the same try-catch, which retries any error not named
`FacebookAuthError`/`FacebookPermissionError`.  At the failing input — every
attempt answered by HTTP 400 with provider code 100, `retryAttempts = 3` —
the call performs 4 fetches with backoff sleeps 1000, 2000, 4000 before
surfacing the error, while a 401 with code 190 (auth) does fail on the first
attempt with zero retries, as the inline comment at line 81 promises for all
4xx. -/
theorem C1_client_error_4xx_retried :
    countEv isFetch (graphAPIRun 10000 1000 3 beh400).2 = 4 ∧
    sleepsOf (graphAPIRun 10000 1000 3 beh400).2 = [1000, 2000, 4000] ∧
    (graphAPIRun 10000 1000 3 beh400).1
      = .error (.apiError "Invalid parameter" "API_PARAMETER" (some 400)
          (some ⟨"Invalid parameter", 100⟩)) ∧
    countEv isFetch (graphAPIRun 10000 1000 3 beh401).2 = 1 ∧
    sleepsOf (graphAPIRun 10000 1000 3 beh401).2 = [] ∧
    (graphAPIRun 10000 1000 3 beh401).1
      = .error (.authError "bad token" "AUTH_TOKEN_INVALID") := by
  decide

/-- C2.  A call whose first `k` attempts return HTTP 500 (with
`k ≤ retryAttempts`, i.e. fewer than the `retryAttempts + 1` total attempts)
and then succeeds returns the parsed payload, sleeps exactly once between
consecutive attempts with delays `retryDelay * 2^0, …, retryDelay * 2^(k-1)`,
and those delays are strictly increasing whenever `retryDelay` is positive. -/
theorem C2_retry_backoff_success (t rd ra k : Nat) (p : String)
    (hk : k ≤ ra) (hd : 0 < rd) :
    (graphAPIRun t rd ra (beh500 k p)).1 = .ok p ∧
    sleepsOf (graphAPIRun t rd ra (beh500 k p)).2
      = (List.range k).map (fun i => rd * 2 ^ i) ∧
    countEv isFetch (graphAPIRun t rd ra (beh500 k p)).2 = k + 1 ∧
    List.Pairwise (· < ·) (sleepsOf (graphAPIRun t rd ra (beh500 k p)).2) := by
  obtain ⟨h1, h2, h3⟩ := graphGo_beh500 t rd ra k p hk (ra + 1) 0 (by omega) (by omega)
  have hrun2 : sleepsOf (graphAPIRun t rd ra (beh500 k p)).2
      = (List.range k).map (fun i => rd * 2 ^ i) := by
    simp only [graphAPIRun, sleepsOf, List.filterMap_cons] at h2 ⊢
    rw [List.range_eq_range']
    simpa using h2
  refine ⟨h1, hrun2, ?_, ?_⟩
  · simp only [graphAPIRun, countEv, List.countP_cons, isFetch] at h3 ⊢
    simp
    omega
  · rw [hrun2]
    rw [List.pairwise_map]
    have hmono : ∀ i j : Nat, i < j → rd * 2 ^ i < rd * 2 ^ j := by
      intro i j hij
      exact Nat.mul_lt_mul_of_le_of_lt (le_refl rd)
        (Nat.pow_lt_pow_right (by omega) hij) (by omega)
    exact (List.pairwise_lt_range k).imp (fun h => hmono _ _ h)

/-- Witness for C2: two 500s with `retryAttempts = 3`, `retryDelay = 1000`
yield the payload after sleeps 1000 and 2000. -/
theorem C2_retry_backoff_success_witness :
    (graphAPIRun 10000 1000 3 (beh500 2 "ok")).1 = .ok "ok" ∧
    sleepsOf (graphAPIRun 10000 1000 3 (beh500 2 "ok")).2 = [1000, 2000] := by
  have h := C2_retry_backoff_success 10000 1000 3 2 "ok" (by omega) (by omega)
  exact ⟨h.1, h.2.1.trans (by decide)⟩

/-- C3 counterexample.  The claim says a GET with the empty params mapping
still encodes the access token into the query string; in the code the guard
`Object.keys(params).length > 0` skips the whole query assembly, so a GET
with empty params carries no query at all — in particular no
`access_token`. -/
theorem C3_get_empty_params_counterexample :
    (buildRequest "tok" "GET" []).urlQuery = [] ∧
    ("access_token", "tok") ∉ (buildRequest "tok" "GET" []).urlQuery := by
  decide

/-- C3 amended.  For GET with a non-empty params mapping, the query string is
the access token followed by all parameters and no body or Authorization
header is sent; for GET with the empty mapping, nothing at all is added (the
token is omitted entirely); for non-GET, the parameters travel as a JSON
body with `Content-Type: application/json` and the token as an
`Authorization: Bearer` header, with no query string. -/
theorem C3_request_shape_amended (tok method : String)
    (params : List (String × String)) :
    (upperAscii method = "GET" → params ≠ [] →
      (buildRequest tok method params).urlQuery = ("access_token", tok) :: params ∧
      (buildRequest tok method params).headers = [] ∧
      (buildRequest tok method params).body = none) ∧
    (upperAscii method = "GET" → params = [] →
      (buildRequest tok method params).urlQuery = [] ∧
      (buildRequest tok method params).headers = [] ∧
      (buildRequest tok method params).body = none) ∧
    (upperAscii method ≠ "GET" →
      (buildRequest tok method params).urlQuery = [] ∧
      (buildRequest tok method params).headers
        = [("Content-Type", "application/json"),
           ("Authorization", "Bearer " ++ tok)] ∧
      (buildRequest tok method params).body = some params) := by
  refine ⟨fun h1 h2 => ?_, fun h1 h2 => ?_, fun h1 => ?_⟩
  · simp [buildRequest, h1, h2]
  · subst h2; simp [buildRequest, h1]
  · simp [buildRequest, h1]

/-- Witness for the amended C3 at a lower-case GET and a POST. -/
theorem C3_request_shape_amended_witness :
    (buildRequest "t" "get" [("a", "b")]).urlQuery
      = [("access_token", "t"), ("a", "b")] ∧
    (buildRequest "t" "post" [("a", "b")]).body = some [("a", "b")] := by
  have h1 := (C3_request_shape_amended "t" "get" [("a", "b")]).1 (by decide) (by decide)
  have h2 := (C3_request_shape_amended "t" "post" [("a", "b")]).2.2 (by decide)
  exact ⟨h1.1, h2.2.2⟩

/-- C4.  `n ≥ 1` concurrent `resolveAccessToken()` calls with no explicit
token, no valid cached value and `forceRefresh = false` make exactly one call
to `FB.getLoginStatus`; the first caller starts promise 0 and every other
caller joins that same promise, so all resolve to the single value the
promise settles to (`.ok tok` on a connected status with token `tok`); the
in-flight slot holds at most that one promise and is cleared by the `finally`
whether the resolution resolves or rejects. -/
theorem C4_single_flight (st : TokenState) (now n : Nat) (hn : 1 ≤ n)
    (hcache : truthyStr st.cachedAccessToken = false
      ∨ ¬(st.cachedExpiresAtMs > now + 5000))
    (hflight : st.inFlight = none) :
    (resolveMany st now n).2.2 = 1 ∧
    (resolveMany st now n).1
      = .started 0 :: List.replicate (n - 1) (.joined 0) ∧
    (resolveMany st now n).2.1.inFlight = some 0 ∧
    (∀ ls, (settleInFlight (resolveMany st now n).2.1 now ls).1.inFlight = none) ∧
    (∀ tok e, tok ≠ "" →
      (settleInFlight (resolveMany st now n).2.1 now
        (some ⟨"connected", some tok, e⟩)).2 = .ok tok) := by
  have h := resolveMany_single_flight st now hcache hflight n hn
  refine ⟨by rw [h], by rw [h], by rw [h], fun ls => settleInFlight_clears _ now ls,
    fun tok e htok => settleInFlight_connected _ now tok e htok⟩

/-- Witness for C4: three concurrent resolutions from the empty state make
one credential-source call and share promise 0, which resolves to the
delivered token. -/
theorem C4_single_flight_witness :
    (resolveMany ⟨none, 0, none⟩ 0 3).2.2 = 1 ∧
    (resolveMany ⟨none, 0, none⟩ 0 3).1
      = [.started 0, .joined 0, .joined 0] ∧
    (settleInFlight (resolveMany ⟨none, 0, none⟩ 0 3).2.1 0
        (some ⟨"connected", some "tok", none⟩)).2 = .ok "tok" := by
  have h := C4_single_flight ⟨none, 0, none⟩ 0 3 (by omega) (Or.inl rfl) rfl
  exact ⟨h.1, h.2.1.trans (by decide), h.2.2.2.2 "tok" none (by decide)⟩

/-- C5 counterexample.  The claim says every attempt has its own timeout with
its own abort signal.  In the code the `AbortController` and the `setTimeout`
are created once, before the retry loop: a run with two attempts (500 then
retry) still shows exactly one controller and one timer start, not one per
fetch. -/
theorem C5_per_attempt_timer_counterexample :
    countEv isFetch (graphAPIRun 10000 1000 1 (fun _ => .failure 500 none)).2 = 2 ∧
    countEv isNewController
      (graphAPIRun 10000 1000 1 (fun _ => .failure 500 none)).2 = 1 ∧
    countEv isTimerStart
      (graphAPIRun 10000 1000 1 (fun _ => .failure 500 none)).2 = 1 ∧
    countEv isNewController (graphAPIRun 10000 1000 1 (fun _ => .failure 500 none)).2
      ≠ countEv isFetch (graphAPIRun 10000 1000 1 (fun _ => .failure 500 none)).2 := by
  decide

/-- C5 amended.  Each `graphAPI` call creates exactly one `AbortController`
and starts exactly one timeout timer, before any fetch; the controller and
timer are per call (sibling calls each run this construction afresh), and an
aborted attempt is reported as the `FacebookTimeoutError` carrying the
configured timeout.  Retry attempts reuse the call-level signal; they are not
governed by a fresh timer. -/
theorem C5_single_timer_per_call_amended (t rd ra : Nat) (beh : Nat → HttpResult) :
    countEv isNewController (graphAPIRun t rd ra beh).2 = 1 ∧
    countEv isTimerStart (graphAPIRun t rd ra beh).2 = 1 ∧
    (graphAPIRun t rd ra beh).2.head? = some .newController ∧
    ((∀ i, beh i = .abort) →
      (graphAPIRun t rd ra beh).1
        = .error (.timeoutError
            ("Request timed out after " ++ toString t ++ "ms") "REQUEST_TIMEOUT")) := by
  obtain ⟨h1, h2⟩ := graphGo_no_controller t rd ra beh (ra + 1) 0
  refine ⟨?_, ?_, by simp [graphAPIRun], ?_⟩
  · simp only [graphAPIRun]
    simp only [countEv, List.countP_cons, isNewController, isTimerStart] at h1 ⊢
    simp [h1]
  · simp only [graphAPIRun]
    simp only [countEv, List.countP_cons, isNewController, isTimerStart] at h2 ⊢
    simp [h2]
  · intro hb
    have hbeq : beh = fun _ => .abort := funext hb
    subst hbeq
    simpa [graphAPIRun] using graphGo_abort t rd ra (ra + 1) 0 (by omega) (by omega)

/-- Witness for the amended C5: an all-abort run with two retries has one
controller and ends in the timeout error. -/
theorem C5_single_timer_per_call_amended_witness :
    countEv isNewController (graphAPIRun 10000 1000 2 (fun _ => .abort)).2 = 1 ∧
    (graphAPIRun 10000 1000 2 (fun _ => .abort)).1
      = .error (.timeoutError "Request timed out after 10000ms" "REQUEST_TIMEOUT") := by
  have h := C5_single_timer_per_call_amended 10000 1000 2 (fun _ => .abort)
  exact ⟨h.1, (h.2.2.2 (fun _ => rfl)).trans (by decide)⟩

/-- C6.  The claim (and the spec) say the pagination loop stops whenever a
page returns zero items.  The code only stops when the cursor chain breaks or
`fetchedCount` reaches `maxLeads`; a provider that returns empty pages with a
live `paging.next`/`cursors.after` keeps being fetched — with fuel for 5
iterations the loop issues all 5 fetches and is still running (`none`),
despite the doc comment of `getAllLeads` promising `maxLeads` prevents
infinite loops. -/
theorem C6_empty_page_keeps_fetching :
    (getAllLeads emptyPageProvider 10 none 5).1 = none ∧
    (getAllLeads emptyPageProvider 10 none 5).2 = 5 ∧
    2 ≤ (getAllLeads emptyPageProvider 10 none 5).2 := by
  decide

/-- C7.  Whenever every provider page returns at most the requested limit,
any completed `getAllLeads` run returns at most `maxLeads` leads, even if the
last response still reports a further cursor; and with `maxLeads = 30`
against pages of size 25 the loop issues exactly two fetches (25 then 5
leads) and returns the 30 leads in provider order. -/
theorem C7_max_leads_cap {α : Type}
    (provider : Nat → Option String → Nat → LeadsResponse α)
    (maxLeads : Nat) (hmax : 1 ≤ maxLeads)
    (hp : ∀ i a l, ((provider i a l).data.getD []).length ≤ l) :
    (∀ fuel after0 out,
      (getAllLeads provider maxLeads after0 fuel).1 = some out →
      out.length ≤ maxLeads) ∧
    getAllLeads pagedProvider 30 none 10 = (some (List.range 30), 2) := by
  refine ⟨?_, by decide⟩
  intro fuel after0 out hout
  exact getAllLeadsGo_le provider maxLeads hp fuel 0 after0 0 [] rfl (by omega) out hout

/-- Witness for C7 at an always-empty provider with `maxLeads = 1`, plus the
concrete 30/25 pagination. -/
theorem C7_max_leads_cap_witness :
    ([] : List Nat).length ≤ 1 ∧
    getAllLeads pagedProvider 30 none 10 = (some (List.range 30), 2) := by
  have h := C7_max_leads_cap (fun _ _ _ => (⟨some [], none⟩ : LeadsResponse Nat)) 1
    (by omega) (by intro i a l; simp)
  exact ⟨h.1 1 none [] (by decide), h.2⟩

/-- C8.  `batchGraphAPI` partitions a non-empty request list into consecutive
groups of at most 50, issues one outer call per group (so 120 requests make
exactly 3 calls with group sizes 50, 50, 20), and concatenates the group
responses preserving the input order (when the outer call answers each
serialized item through `f`, the result is the input-ordered map of `f` over
the serialized requests); an empty — or, before the array check, absent —
input fails with the plain invalid-input error before any call is issued. -/
theorem C8_batch_dispatch (f : BatchItem → Except FBError String)
    (responder : List BatchItem → List (Except FBError String))
    (hresp : ∀ items, responder items = items.map f)
    (requests : List BatchReq) (hne : requests ≠ []) :
    (batchGraphAPI responder (some requests)).1
      = .ok (requests.enum.map (fun p => f (mkBatchItem p.1 p.2))) ∧
    (batchGraphAPI responder (some requests)).2 = (chunks50 requests.enum).length ∧
    (∀ g ∈ chunks50 requests.enum, g.length ≤ 50) ∧
    (batchGraphAPI responder (none : Option (List BatchReq))).1
      = .error "Requests must be a non-empty array" ∧
    (batchGraphAPI responder (some ([] : List BatchReq))).1
      = .error "Requests must be a non-empty array" ∧
    (batchGraphAPI responder (some ([] : List BatchReq))).2 = 0 ∧
    (chunks50 demo120.enum).map List.length = [50, 50, 20] ∧
    (batchGraphAPI responder (some demo120)).2 = 3 := by
  refine ⟨?_, ?_, chunks50_le _, rfl, rfl, rfl, by decide, ?_⟩
  · simp [batchGraphAPI, hne, batchLoop_map f responder hresp, chunks50_flatten]
  · simp [batchGraphAPI, hne, batchLoop_calls]
  · have hd : demo120 ≠ [] := by decide
    simp [batchGraphAPI, hd, batchLoop_calls]
    decide

/-- Witness for C8: a single-request batch is answered in order, and 120
requests make 3 outer calls. -/
theorem C8_batch_dispatch_witness :
    (batchGraphAPI (fun items => items.map (fun _ => Except.ok "r"))
      (some [({ method := none, endpoint := "me", params := none, name := none }
        : BatchReq)])).1
      = .ok [.ok "r"] ∧
    (batchGraphAPI (fun items => items.map (fun _ => Except.ok "r"))
      (some demo120)).2 = 3 := by
  have h := C8_batch_dispatch (fun _ => Except.ok "r")
    (fun items => items.map (fun _ => Except.ok "r")) (fun _ => rfl)
    [({ method := none, endpoint := "me", params := none, name := none } : BatchReq)]
    (by simp)
  exact ⟨h.1.trans (by rfl), h.2.2.2.2.2.2.2⟩

/-- C9.  For every HTTP status value, a provider error body with code 190
classifies to `FacebookAuthError` and one with code 10 to
`FacebookPermissionError`; the HTTP status plays no part in either. -/
theorem C9_classification_by_code (statusCode : Option Nat) (msg : String) :
    createFacebookError (some ⟨msg, 190⟩) statusCode
      = .authError msg "AUTH_TOKEN_INVALID" ∧
    createFacebookError (some ⟨msg, 10⟩) statusCode
      = .permissionError msg [] "PERMISSION_DENIED" := ⟨rfl, rfl⟩

/-- C10 counterexample.  The claim quantifies over every string token, but
the empty string is a string and is falsy in JS: `setAccessToken("", e)`
stores expiry 0, not one hour, and `getCachedAccessToken` returns `null`
even though the current time is well before the claimed expiry margin. -/
theorem C10_empty_string_token_counterexample :
    (setAccessToken ⟨none, 0, none⟩ 0 (some "") none).cachedExpiresAtMs = 0 ∧
    (0 : Nat) ≠ 0 + 60 * 60 * 1000 ∧
    getCachedAccessToken (setAccessToken ⟨none, 0, none⟩ 0 (some "") none) 0 = none ∧
    (0 : Nat) + 5000 < 0 + 60 * 60 * 1000 := by
  refine ⟨rfl, by decide, rfl, by decide⟩

/-- C10 amended.  For every non-empty string token, `setAccessToken` with
`expiresInSeconds` undefined or 0 caches the token with expiry exactly one
hour (3,600,000 ms) from now — zero is treated as unspecified — and
`getCachedAccessToken` returns that token exactly until 5 seconds before the
expiry. -/
theorem C10_nonempty_token_amended (st : TokenState) (now : Nat) (t : String)
    (e : Option Nat) (ht : t ≠ "") (he : e = none ∨ e = some 0) :
    (setAccessToken st now (some t) e).cachedAccessToken = some t ∧
    (setAccessToken st now (some t) e).cachedExpiresAtMs = now + 60 * 60 * 1000 ∧
    ∀ now2 : Nat, getCachedAccessToken (setAccessToken st now (some t) e) now2
      = if now2 + 5000 < now + 60 * 60 * 1000 then some t else none := by
  have htr : truthyStr (some t) = true := by simp [truthyStr, ht]
  have hexp : (setAccessToken st now (some t) e).cachedExpiresAtMs
      = now + 60 * 60 * 1000 := by
    rcases he with he | he <;> subst he <;> simp [setAccessToken, htr, truthyNum]
  have hca : (setAccessToken st now (some t) e).cachedAccessToken = some t := rfl
  refine ⟨hca, hexp, ?_⟩
  intro now2
  simp only [getCachedAccessToken, hca, hexp]
  simp [htr, gt_iff_lt]

/-- Witness for the amended C10: a token cached at time 0 with unspecified
expiry expires at 3,600,000 and is still returned at 3,594,999. -/
theorem C10_nonempty_token_amended_witness :
    (setAccessToken ⟨none, 0, none⟩ 0 (some "tok") none).cachedExpiresAtMs
      = 0 + 60 * 60 * 1000 ∧
    getCachedAccessToken (setAccessToken ⟨none, 0, none⟩ 0 (some "tok") none) 3594999
      = some "tok" := by
  have h := C10_nonempty_token_amended ⟨none, 0, none⟩ 0 "tok" none (by decide)
    (Or.inl rfl)
  refine ⟨h.2.1, ?_⟩
  have h2 := h.2.2 3594999
  rw [h2, if_pos (by omega)]

end InteractFB
